import Mathlib

/-!
Verification development for the camera-backup uploader
(`src/camera_backup/uploader.py`, class `S3Uploader`).

The Python program is shallowly embedded as follows.

* Times (`time.time()`, `st_mtime`) are natural numbers of seconds since the
  Unix epoch.  The scanner's float comparison `time.time() - mod_time > 300`
  is translated to `mtime + 300 < now` over `Nat`, which agrees with the real
  arithmetic whenever times are whole seconds.
* `datetime.fromtimestamp` is modelled with a fixed zero UTC offset (the host
  timezone is environment, not program); the year/month/day computation is the
  standard proleptic-Gregorian civil-from-days algorithm, which is what the
  CPython date conversion computes for non-negative timestamps.
* External effects of `upload_file` (the `stat` call, the S3 transfer, the
  `unlink`) are driven by an explicit environment `UploadEnv` that prescribes
  the outcome of each call, and every call made is recorded in an ordered
  trace of `Action`s.  A Python exception escaping a function is an
  `Except.error`; a normal return of `b` is `Except.ok b`.
* Filesystem contents seen by `find_completed_segments` are an explicit value:
  a list of root-level entries (with an `isDir` flag, since the code skips
  non-directories), each carrying its immediate children.  `glob("*.mp4")`
  matches an immediate child by name (suffix `.mp4`); like `pathlib`'s glob it
  is purely a name filter on the directory's immediate entries.
* Python's `sorted` on `pathlib.Path` values is a stable sort comparing the
  *parts tuple* of each path (`PurePath.__lt__`), the component strings in
  code-point order; since all scanned paths share the storage-root prefix,
  this is the pair `(camera, filename)` ordered by camera directory name
  first, then filename.  It is embedded as an insertion sort with the same
  stability, which computes the same list.  (This is *not* code-point order
  on the joined path string: the two differ when one camera name is a
  proper prefix of another, e.g. `front` and `front-door`.)
-/

namespace CameraBackup

/-- Kinds of Python exception relevant to the uploader.  `except Exception`
in the source catches all of them alike. -/
inductive PyError where
  | fileNotFound
  | networkError
  | authError
  | storeError
  | otherError
deriving DecidableEq, Repr

/-- The configuration fields the core reads (`self.bucket`,
`self.delete_after_upload`, `self.check_interval`).  Credentials and endpoint
only parameterize the boto3 client and are not modelled. -/
structure Config where
  bucket : String
  delete_after_upload : Bool
  check_interval : Nat
deriving DecidableEq, Repr

/-- A discovered segment: `camera` is the parent directory name
(`local_file.parent.name`), `filename` the base name (`local_file.name`). -/
structure Seg where
  camera : String
  filename : String
deriving DecidableEq, Repr

/-! ### Date computation and the remote object key -/

/-- Civil date `(year, month, day)` of a day count since 1970-01-01 in the
proleptic Gregorian calendar (the standard civil-from-days algorithm).  This
is the date `datetime.fromtimestamp` yields at zero UTC offset. -/
def civilFromDays (days : Nat) : Nat × Nat × Nat :=
  let z := days + 719468
  let era := z / 146097
  let doe := z % 146097
  let yoe := (doe - doe / 1460 + doe / 36524 - doe / 146096) / 365
  let y := yoe + era * 400
  let doy := doe - (365 * yoe + yoe / 4 - yoe / 100)
  let mp := (5 * doy + 2) / 153
  let d := doy - (153 * mp + 2) / 5 + 1
  let m := if mp < 10 then mp + 3 else mp - 9
  (if m ≤ 2 then y + 1 else y, m, d)

/-- Date of an epoch timestamp in seconds:
`datetime.fromtimestamp(mtime)`'s `(year, month, day)`. -/
def civilFromTimestamp (mtime : Nat) : Nat × Nat × Nat :=
  civilFromDays (mtime / 86400)

/-- The strftime month/day fields: decimal, zero-padded to two digits. -/
def pad2 (n : Nat) : String :=
  if n < 10 then "0" ++ toString n else toString n

/-- The remote object key built by `upload_file`:
the f-string joining camera_name, the year/month/day of
`date_str = datetime.fromtimestamp(local_file.stat().st_mtime)`.
(`%Y` needs no padding for the post-1970 dates a `Nat` timestamp yields.) -/
def s3_key (camera_name filename : String) (mtime : Nat) : String :=
  let ymd := civilFromTimestamp mtime
  camera_name ++ "/" ++ toString ymd.1 ++ "/" ++ pad2 ymd.2.1 ++ "/" ++
    pad2 ymd.2.2 ++ "/" ++ filename

/-! ### The upload coordinator `upload_file` -/

/-- Outcomes the environment prescribes for the external calls `upload_file`
makes, in program order: `Path.stat` (yielding `st_mtime` or raising),
`s3_client.upload_file` (raising on failure), `Path.unlink` (raising on
failure, e.g. the file vanished after the upload).  An outcome is only
consulted if the code actually reaches the corresponding call. -/
structure UploadEnv where
  statResult : Except PyError Nat
  uploadResult : Option PyError
  unlinkResult : Option PyError
deriving Repr

/-- One external call made by `upload_file`, with the segment it concerns and
whether the call succeeded. -/
inductive Action where
  | stat (seg : Seg) (ok : Bool)
  | s3upload (seg : Seg) (bucket : String) (key : String) (ok : Bool)
  | unlink (seg : Seg) (ok : Bool)
deriving DecidableEq, Repr

/-- Shallow embedding of `S3Uploader.upload_file` (uploader.py lines 53-81).
Returns the ordered trace of external calls and the Python outcome: `.ok b`
models `return b`, `.error e` models an exception escaping the function.

Tracing the source: `camera_name`/`filename` are the two components of `seg`;
`local_file.stat().st_mtime` runs *before* the `try` block, so a raising
`stat` escapes; inside the `try`, the S3 transfer and (when
`delete_after_upload` is set) the `unlink` run in order, and any exception
from them is caught by `except Exception`, which returns `False`. -/
def upload_file (cfg : Config) (env : UploadEnv) (seg : Seg) :
    List Action × Except PyError Bool :=
  match env.statResult with
  | .error e => ([.stat seg false], .error e)
  | .ok mtime =>
    let key := s3_key seg.camera seg.filename mtime
    match env.uploadResult with
    | some _ => ([.stat seg true, .s3upload seg cfg.bucket key false], .ok false)
    | none =>
      if cfg.delete_after_upload then
        match env.unlinkResult with
        | some _ =>
            ([.stat seg true, .s3upload seg cfg.bucket key true,
              .unlink seg false], .ok false)
        | none =>
            ([.stat seg true, .s3upload seg cfg.bucket key true,
              .unlink seg true], .ok true)
      else
        ([.stat seg true, .s3upload seg cfg.bucket key true], .ok true)

/-- The segments a trace successfully uploaded, in order. -/
def uploadedSegs (t : List Action) : List Seg :=
  t.filterMap fun a =>
    match a with
    | .s3upload s _ _ true => some s
    | _ => none

/-- The segments a trace actually deleted (successful `unlink`), in order. -/
def deletedSegs (t : List Action) : List Seg :=
  t.filterMap fun a =>
    match a with
    | .unlink s true => some s
    | _ => none

/-- Whether a trace contains any `unlink` call at all (even a failing one). -/
def attemptsUnlink (t : List Action) : Bool :=
  t.any fun a =>
    match a with
    | .unlink _ _ => true
    | _ => false

/-- Holds (equals true) iff every `unlink` call in `t`
is preceded by a successful `s3upload` call (`uploaded` records whether one
has already been seen). -/
def unlinkOnlyAfterUpload : Bool → List Action → Bool
  | _, [] => true
  | uploaded, a :: t =>
    match a with
    | .unlink _ _ => uploaded && unlinkOnlyAfterUpload uploaded t
    | .s3upload _ _ _ ok => unlinkOnlyAfterUpload (uploaded || ok) t
    | _ => unlinkOnlyAfterUpload uploaded t

/-! ### The segment scanner `find_completed_segments` -/

/-- Code-point lexicographic order on lists of characters, as a Boolean.
This is exactly how Python compares the underlying path strings. -/
def charListLe : List Char → List Char → Bool
  | [], _ => true
  | _ :: _, [] => false
  | a :: as, b :: bs => if a < b then true else if b < a then false else charListLe as bs

/-- The full path of a segment relative to the storage root, joined as one
string. -/
def segKey (s : Seg) : String :=
  s.camera ++ "/" ++ s.filename

/-- The order `sorted(segments)` sorts by.  `PurePath.__lt__` compares the
tuple of path components; with the shared storage-root prefix dropped that
is the pair (camera directory name, filename), camera first, each string in
code-point order. -/
def segLe (a b : Seg) : Bool :=
  if a.camera = b.camera then charListLe a.filename.data b.filename.data
  else charListLe a.camera.data b.camera.data

/-- The order the spec's words "sorted lexicographically by full path"
denote, stated from those words for comparison with the program's
comparator `segLe`: code-point lexicographic on the joined path string
(the shared storage-root prefix dropped).  The two differ when one camera
name is a proper prefix of another. -/
def fullPathLe (a b : Seg) : Bool :=
  charListLe (segKey a).data (segKey b).data

/-- Insert into a sorted list, keeping the inserted element in front of
elements it ties with (the stability Python's `sorted` has). -/
def insertSorted (x : Seg) : List Seg → List Seg
  | [] => [x]
  | y :: ys => if segLe x y then x :: y :: ys else y :: insertSorted x ys

/-- Stable sort by `segLe`: the embedding of `sorted(segments)`. -/
def sortSegs : List Seg → List Seg
  | [] => []
  | x :: xs => insertSorted x (sortSegs xs)

/-- Whether `glob("*.mp4")` matches a name: the name ends in `.mp4`
(`fnmatch`-style, so the bare name `.mp4` also matches). -/
def globMatchesMp4 (name : String) : Bool :=
  name.data.drop (name.data.length - 4) == ['.', 'm', 'p', '4']

/-- An immediate entry of a camera directory: a regular file, or a nested
subdirectory (whose own contents, a list of `(name, mtime)` files, the
scanner must never look into).  Both kinds carry the `st_mtime` that
`stat` reports for them. -/
inductive CamEntry where
  | file (name : String) (mtime : Nat)
  | subdir (name : String) (mtime : Nat) (contents : List (String × Nat))
deriving DecidableEq, Repr

/-- The name of a camera-directory entry. -/
def CamEntry.name : CamEntry → String
  | .file n _ => n
  | .subdir n _ _ => n

/-- The modification time of a camera-directory entry. -/
def CamEntry.mtime : CamEntry → Nat
  | .file _ m => m
  | .subdir _ m _ => m

/-- An immediate entry of the storage root (`self.local_path.iterdir()`):
its name, whether it is a directory, and — when it is — its immediate
entries.  `entries` is meaningless when `isDir = false`. -/
structure RootEntry where
  name : String
  isDir : Bool
  entries : List CamEntry
deriving DecidableEq, Repr

/-- The `segments` list as built by the two nested loops of
`find_completed_segments` before sorting: for each root entry that is a
directory, every immediate entry matching `*.mp4` whose age exceeds 300
seconds (`time.time() - mod_time > 300`, strict). -/
def collectSegments (now : Nat) (root : List RootEntry) : List Seg :=
  root.flatMap fun cam =>
    if cam.isDir then
      cam.entries.filterMap fun e =>
        if globMatchesMp4 e.name && decide (e.mtime + 300 < now) then
          some ⟨cam.name, e.name⟩
        else none
    else []

/-- Shallow embedding of `S3Uploader.find_completed_segments`
(uploader.py lines 36-51): collect, then `sorted(segments)`. -/
def find_completed_segments (now : Nat) (root : List RootEntry) : List Seg :=
  sortSegs (collectSegments now root)

/-- Empty out the contents of a nested subdirectory, keeping its name and
modification time; a regular file is untouched. -/
def stripEntry : CamEntry → CamEntry
  | .file n m => .file n m
  | .subdir n m _ => .subdir n m []

/-- Replace the contents of every nested subdirectory by the empty list,
leaving everything the scanner may legitimately look at unchanged. -/
def stripNested (root : List RootEntry) : List RootEntry :=
  root.map fun r => ⟨r.name, r.isDir, r.entries.map stripEntry⟩

/-! ### The poll loop `run_continuous` -/

/-- The `for segment in segments:` loop of one cycle: call `upload_file` on
each segment in order, accumulating the combined trace and the per-segment
boolean results.  An exception escaping some `upload_file` call escapes the
loop (aborting the cycle's remaining segments). -/
def process_segments (cfg : Config) (uenv : Seg → UploadEnv) :
    List Seg → Except PyError (List Action × List (Seg × Bool))
  | [] => .ok ([], [])
  | s :: rest =>
    match upload_file cfg (uenv s) s with
    | (_, .error e) => .error e
    | (t, .ok b) =>
      match process_segments cfg uenv rest with
      | .error e => .error e
      | .ok (ts, rs) => .ok (t ++ ts, (s, b) :: rs)

/-- One scan-and-upload cycle: `find_completed_segments()` followed by the
upload loop over the discovered segments. -/
def run_cycle (cfg : Config) (now : Nat) (root : List RootEntry)
    (uenv : Seg → UploadEnv) : Except PyError (List Action × List (Seg × Bool)) :=
  process_segments cfg uenv (find_completed_segments now root)

/-- The environment one iteration of the `while True` loop runs against: the
clock reading, the storage tree, the outcome of each segment's external
calls, and whether the operator interrupts this iteration
(`KeyboardInterrupt`). -/
structure CycleEnv where
  now : Nat
  root : List RootEntry
  uenv : Seg → UploadEnv
  interrupt : Bool

/-- Observable outcome of one iteration of the poll loop: a completed cycle
followed by `time.sleep(check_interval)`, a caught exception followed by
`time.sleep(60)`, or a clean stop on `KeyboardInterrupt`. -/
inductive IterResult where
  | completed (results : List (Seg × Bool)) (sleepSeconds : Nat)
  | errorCaught (e : PyError) (sleepSeconds : Nat)
  | stopped
deriving Repr

/-- One iteration of the `while True` body (uploader.py lines 87-104): on
`KeyboardInterrupt` the loop breaks; otherwise the cycle runs under `try`,
a normal cycle ends with the `check_interval` sleep, and any exception is
caught by `except Exception` and followed by the fixed 60-second sleep.
The iteration reads nothing but the configuration and its own
environment — the code keeps no other state across iterations. -/
def run_iteration (cfg : Config) (env : CycleEnv) : IterResult :=
  if env.interrupt then .stopped
  else
    match run_cycle cfg env.now env.root env.uenv with
    | .ok (_, rs) => .completed rs cfg.check_interval
    | .error e => .errorCaught e 60

/-- Shallow embedding of `S3Uploader.run_continuous`, unrolled over a finite
list of per-iteration environments: each iteration's outcome in order,
stopping after a `KeyboardInterrupt` (`break`). -/
def run_continuous (cfg : Config) : List CycleEnv → List IterResult
  | [] => []
  | env :: rest =>
    match run_iteration cfg env with
    | .stopped => [.stopped]
    | r => r :: run_continuous cfg rest

/-! ### Trace observations -/

/-- The remote keys a trace passed to `s3_client.upload_file`, in order. -/
def uploadKeys (t : List Action) : List String :=
  t.filterMap fun a =>
    match a with
    | .s3upload _ _ k _ => some k
    | _ => none

/-- Segments successfully uploaded during a whole cycle (empty if the cycle
aborted with an exception). -/
def cycleUploaded (r : Except PyError (List Action × List (Seg × Bool))) :
    List Seg :=
  match r with
  | .ok (t, _) => uploadedSegs t
  | .error _ => []

/-- Segments actually deleted during a whole cycle (empty if the cycle
aborted with an exception). -/
def cycleDeleted (r : Except PyError (List Action × List (Seg × Bool))) :
    List Seg :=
  match r with
  | .ok (t, _) => deletedSegs t
  | .error _ => []

/-! ### Correctness of the embedded sort -/

theorem charListLe_total : ∀ as bs : List Char,
    charListLe as bs = true ∨ charListLe bs as = true
  | [], _ => Or.inl rfl
  | _ :: _, [] => Or.inr rfl
  | a :: as, b :: bs => by
    rcases lt_trichotomy a b with h | h | h
    · exact Or.inl (by simp [charListLe, h])
    · subst h
      rcases charListLe_total as bs with ih | ih
      · exact Or.inl (by simp [charListLe, ih])
      · exact Or.inr (by simp [charListLe, ih])
    · exact Or.inr (by simp [charListLe, h])

theorem charListLe_trans : ∀ as bs cs : List Char,
    charListLe as bs = true → charListLe bs cs = true →
    charListLe as cs = true
  | [], _, _ => by intro _ _; rfl
  | _ :: _, [], _ => by intro h _; simp [charListLe] at h
  | _ :: _, _ :: _, [] => by intro _ h; simp [charListLe] at h
  | a :: as, b :: bs, c :: cs => by
    intro h₁ h₂
    rcases lt_trichotomy a b with hab | hab | hab
    · rcases lt_trichotomy b c with hbc | hbc | hbc
      · simp [charListLe, lt_trans hab hbc]
      · subst hbc; simp [charListLe, hab]
      · simp [charListLe, hbc, not_lt_of_lt hbc] at h₂
    · subst hab
      rcases lt_trichotomy a c with hac | hac | hac
      · simp [charListLe, hac]
      · subst hac
        simp only [charListLe, lt_irrefl, if_false] at h₁ h₂ ⊢
        exact charListLe_trans as bs cs h₁ h₂
      · simp [charListLe, hac, not_lt_of_lt hac] at h₂
    · simp [charListLe, hab, not_lt_of_lt hab] at h₁

theorem charListLe_antisymm : ∀ as bs : List Char,
    charListLe as bs = true → charListLe bs as = true → as = bs
  | [], [] => fun _ _ => rfl
  | [], _ :: _ => fun _ h => by simp [charListLe] at h
  | _ :: _, [] => fun h _ => by simp [charListLe] at h
  | a :: as, b :: bs => fun h₁ h₂ => by
    rcases lt_trichotomy a b with h | h | h
    · simp [charListLe, h, not_lt_of_lt h] at h₂
    · subst h
      simp only [charListLe, lt_irrefl, if_false] at h₁ h₂
      rw [charListLe_antisymm as bs h₁ h₂]
    · simp [charListLe, h, not_lt_of_lt h] at h₁

theorem segLe_total (a b : Seg) : segLe a b = true ∨ segLe b a = true := by
  unfold segLe
  by_cases h : a.camera = b.camera
  · rw [if_pos h, if_pos h.symm]
    exact charListLe_total _ _
  · rw [if_neg h, if_neg fun hh => h hh.symm]
    exact charListLe_total _ _

theorem segLe_trans {a b c : Seg} (h₁ : segLe a b = true)
    (h₂ : segLe b c = true) : segLe a c = true := by
  unfold segLe at h₁ h₂ ⊢
  by_cases hab : a.camera = b.camera <;> by_cases hbc : b.camera = c.camera
  · rw [if_pos hab] at h₁
    rw [if_pos hbc] at h₂
    rw [if_pos (hab.trans hbc)]
    exact charListLe_trans _ _ _ h₁ h₂
  · rw [if_pos hab] at h₁
    rw [if_neg hbc] at h₂
    have hac : a.camera ≠ c.camera := by rw [hab]; exact hbc
    rw [if_neg hac, hab]
    exact h₂
  · rw [if_neg hab] at h₁
    rw [if_pos hbc] at h₂
    have hac : a.camera ≠ c.camera := by rw [← hbc]; exact hab
    rw [if_neg hac, ← hbc]
    exact h₁
  · rw [if_neg hab] at h₁
    rw [if_neg hbc] at h₂
    by_cases hac : a.camera = c.camera
    · exfalso
      apply hab
      have h₂' : charListLe b.camera.data a.camera.data = true := by
        rw [hac]
        exact h₂
      exact congrArg String.mk (charListLe_antisymm _ _ h₁ h₂')
    · rw [if_neg hac]
      exact charListLe_trans _ _ _ h₁ h₂

theorem mem_insertSorted {x s : Seg} : ∀ {l : List Seg},
    s ∈ insertSorted x l ↔ s = x ∨ s ∈ l := by
  intro l
  induction l with
  | nil => simp [insertSorted]
  | cons y ys ih =>
    by_cases h : segLe x y = true
    · simp [insertSorted, h, or_comm, or_assoc]
    · simp [insertSorted, h, List.mem_cons, ih]
      tauto

theorem pairwise_insertSorted {x : Seg} : ∀ {l : List Seg},
    l.Pairwise (fun a b => segLe a b = true) →
    (insertSorted x l).Pairwise (fun a b => segLe a b = true) := by
  intro l
  induction l with
  | nil => intro _; simp [insertSorted]
  | cons y ys ih =>
    intro h
    rcases List.pairwise_cons.mp h with ⟨hy, hys⟩
    by_cases hxy : segLe x y = true
    · have hu : insertSorted x (y :: ys) = x :: y :: ys := by
        simp [insertSorted, hxy]
      rw [hu]
      refine List.pairwise_cons.mpr ⟨?_, h⟩
      intro a ha
      rcases List.mem_cons.mp ha with rfl | ha
      · exact hxy
      · exact segLe_trans hxy (hy a ha)
    · have hyx : segLe y x = true := (segLe_total x y).resolve_left hxy
      have hu : insertSorted x (y :: ys) = y :: insertSorted x ys := by
        simp [insertSorted, hxy]
      rw [hu]
      refine List.pairwise_cons.mpr ⟨?_, ih hys⟩
      intro a ha
      rcases mem_insertSorted.mp ha with rfl | ha
      · exact hyx
      · exact hy a ha

theorem sortSegs_pairwise : ∀ l : List Seg,
    (sortSegs l).Pairwise (fun a b => segLe a b = true)
  | [] => List.Pairwise.nil
  | _ :: xs => pairwise_insertSorted (sortSegs_pairwise xs)

theorem mem_sortSegs {s : Seg} : ∀ {l : List Seg},
    s ∈ sortSegs l ↔ s ∈ l := by
  intro l
  induction l with
  | nil => simp [sortSegs]
  | cons x xs ih => simp [sortSegs, mem_insertSorted, ih]

/-- Membership in the collected (pre-sort) segment list, characterized. -/
theorem mem_collectSegments {now : Nat} {root : List RootEntry} {s : Seg} :
    s ∈ collectSegments now root ↔
      ∃ r ∈ root, r.isDir = true ∧ r.name = s.camera ∧
        ∃ e ∈ r.entries, e.name = s.filename ∧
          globMatchesMp4 e.name = true ∧ e.mtime + 300 < now := by
  unfold collectSegments
  rw [List.mem_flatMap]
  constructor
  · rintro ⟨r, hr, hs⟩
    by_cases hd : r.isDir
    · rw [if_pos hd, List.mem_filterMap] at hs
      obtain ⟨e, he, hg⟩ := hs
      by_cases hc : globMatchesMp4 e.name && decide (e.mtime + 300 < now)
      · rw [if_pos hc] at hg
        obtain ⟨hm, ho⟩ := Bool.and_eq_true_iff.mp hc
        cases hg
        exact ⟨r, hr, hd, rfl, e, he, rfl, hm, of_decide_eq_true ho⟩
      · rw [if_neg hc] at hg
        exact absurd hg (Option.noConfusion)
    · rw [if_neg hd] at hs
      exact absurd hs (List.not_mem_nil s)
  · rintro ⟨r, hr, hd, hname, e, he, hfn, hm, ho⟩
    refine ⟨r, hr, ?_⟩
    rw [if_pos hd, List.mem_filterMap]
    refine ⟨e, he, ?_⟩
    rw [if_pos (Bool.and_eq_true_iff.mpr ⟨hm, decide_eq_true ho⟩)]
    cases s
    simp only [Seg.mk.injEq] at *
    exact congrArg some (by simp [hname, hfn])

/-- Membership in the scanner's output, characterized. -/
theorem mem_find_completed_segments {now : Nat} {root : List RootEntry}
    {s : Seg} :
    s ∈ find_completed_segments now root ↔
      ∃ r ∈ root, r.isDir = true ∧ r.name = s.camera ∧
        ∃ e ∈ r.entries, e.name = s.filename ∧
          globMatchesMp4 e.name = true ∧ e.mtime + 300 < now := by
  rw [find_completed_segments, mem_sortSegs]
  exact mem_collectSegments

theorem filterMap_stripEntry (cname : String) (now : Nat) :
    ∀ es : List CamEntry,
    (es.map stripEntry).filterMap
      (fun e => if globMatchesMp4 e.name && decide (e.mtime + 300 < now)
        then some (⟨cname, e.name⟩ : Seg) else none) =
    es.filterMap
      (fun e => if globMatchesMp4 e.name && decide (e.mtime + 300 < now)
        then some (⟨cname, e.name⟩ : Seg) else none)
  | [] => rfl
  | e :: es => by
    have ih := filterMap_stripEntry cname now es
    cases e <;>
      simp only [stripEntry, List.map_cons, List.filterMap_cons] <;>
      rw [ih] <;> rfl

theorem collectSegments_stripNested (now : Nat) :
    ∀ root : List RootEntry,
    collectSegments now (stripNested root) = collectSegments now root
  | [] => rfl
  | r :: rs => by
    have ih := collectSegments_stripNested now rs
    simp only [stripNested, List.map_cons, collectSegments,
      List.flatMap_cons] at ih ⊢
    rw [ih, filterMap_stripEntry]

/-! ### Claim theorems -/

/-- Claim C1: When the S3 transfer raises (network, auth, store, or any other
exception during the upload), `upload_file` returns `False`, never unlinks
the local file, and no exception escapes the call: the outcome is
`Except.ok false` and the trace contains no `unlink` at all. -/
theorem upload_failure_keeps_file_returns_false
    (cfg : Config) (env : UploadEnv) (seg : Seg) (mtime : Nat) (e : PyError)
    (hstat : env.statResult = .ok mtime)
    (hup : env.uploadResult = some e) :
    (upload_file cfg env seg).2 = .ok false ∧
    deletedSegs (upload_file cfg env seg).1 = [] ∧
    attemptsUnlink (upload_file cfg env seg).1 = false := by
  simp [upload_file, hstat, hup, deletedSegs, attemptsUnlink]

/-- Witness for C1: a concrete failing upload (network error). -/
theorem upload_failure_keeps_file_returns_false_witness :
    (upload_file ⟨"bkt", true, 30⟩
        ⟨.ok 1705320000, some .networkError, none⟩ ⟨"cam", "a.mp4"⟩).2 =
      .ok false ∧
    deletedSegs (upload_file ⟨"bkt", true, 30⟩
        ⟨.ok 1705320000, some .networkError, none⟩ ⟨"cam", "a.mp4"⟩).1 = [] ∧
    attemptsUnlink (upload_file ⟨"bkt", true, 30⟩
        ⟨.ok 1705320000, some .networkError, none⟩ ⟨"cam", "a.mp4"⟩).1 =
      false :=
  upload_failure_keeps_file_returns_false _ _ _ 1705320000 .networkError
    rfl rfl

/-- Claim C2: In every execution of `upload_file`, any `unlink` call in the
trace of external calls is preceded by an `s3_client.upload_file` call that
returned successfully: deletion happens only after (never before, and — the
calls being a sequential trace — never concurrently with) the confirmed
upload. -/
theorem deletion_only_after_successful_upload
    (cfg : Config) (env : UploadEnv) (seg : Seg) :
    unlinkOnlyAfterUpload false (upload_file cfg env seg).1 = true := by
  rcases env with ⟨sr, ur, lr⟩
  rcases cfg with ⟨b, d, i⟩
  rcases sr with e | m <;> rcases ur with _ | e' <;> rcases d <;>
    rcases lr with _ | e'' <;> simp [upload_file, unlinkOnlyAfterUpload]

/-- Claim C3, refuted by the code: `local_file.stat()` on line 59 runs
*before* the `try` block, so when the file has vanished between discovery
and upload the `FileNotFoundError` escapes `upload_file` instead of being
converted into `False`. -/
theorem vanished_file_raises_past_upload_file
    (cfg : Config) (seg : Seg) :
    (upload_file cfg ⟨.error .fileNotFound, none, none⟩ seg).2 =
      .error .fileNotFound := by
  simp [upload_file]

/-- Claim C4: The remote key the code hands to the S3 client is the pure
function `s3_key` of exactly (camera directory name, filename, stat mtime):
camera/YYYY/MM/DD/filename with the zero-padded date derived
from the modification time.  The two concrete instances check the
date-from-timestamp computation (including zero-padding of month and day);
1705320000 is 2024-01-15T12:00:00 UTC and 1704067199 is
2023-12-31T23:59:59 UTC. -/
theorem remote_key_pure_function_of_inputs :
    (∀ (cfg : Config) (env : UploadEnv) (seg : Seg) (mtime : Nat),
        env.statResult = .ok mtime →
        uploadKeys (upload_file cfg env seg).1 =
          [s3_key seg.camera seg.filename mtime]) ∧
    s3_key "front-door" "20240115_120000.mp4" 1705320000 =
      "front-door/2024/01/15/20240115_120000.mp4" ∧
    s3_key "back-yard" "segment.mp4" 1704067199 =
      "back-yard/2023/12/31/segment.mp4" := by
  refine ⟨?_, by decide, by decide⟩
  intro cfg env seg mtime hstat
  rcases env with ⟨sr, ur, lr⟩
  rcases cfg with ⟨b, d, i⟩
  simp only at hstat
  subst hstat
  rcases ur with _ | e' <;> rcases d <;> rcases lr with _ | e'' <;>
    simp [upload_file, uploadKeys]

/-- Witness for C4: the key used in a concrete successful call. -/
theorem remote_key_pure_function_of_inputs_witness :
    uploadKeys (upload_file ⟨"bkt", false, 30⟩ ⟨.ok 1705320000, none, none⟩
        ⟨"front-door", "20240115_120000.mp4"⟩).1 =
      ["front-door/2024/01/15/20240115_120000.mp4"] := by
  have h := remote_key_pure_function_of_inputs
  rw [h.1 _ _ _ 1705320000 rfl, h.2.1]

/-- Claim C6: When the S3 transfer succeeds (and the file, present at the
initial `stat`, is not removed by outside interference, so the `unlink`
itself cannot fail): with `delete_after_upload` enabled the local file is
deleted before the call returns, with it disabled no `unlink` is even
attempted, and in both cases `upload_file` returns `True`. -/
theorem upload_success_deletes_iff_configured
    (cfg : Config) (env : UploadEnv) (seg : Seg) (mtime : Nat)
    (hstat : env.statResult = .ok mtime)
    (hup : env.uploadResult = none)
    (hun : env.unlinkResult = none) :
    (upload_file cfg env seg).2 = .ok true ∧
    deletedSegs (upload_file cfg env seg).1 =
      (if cfg.delete_after_upload then [seg] else []) ∧
    (cfg.delete_after_upload = false →
      attemptsUnlink (upload_file cfg env seg).1 = false) := by
  rcases cfg with ⟨b, d, i⟩
  rcases d <;>
    simp [upload_file, hstat, hup, hun, deletedSegs, attemptsUnlink]

/-- Witness for C6: both configurations, on a concrete successful upload. -/
theorem upload_success_deletes_iff_configured_witness :
    ((upload_file ⟨"bkt", true, 30⟩ ⟨.ok 0, none, none⟩
        ⟨"cam", "a.mp4"⟩).2 = .ok true ∧
      deletedSegs (upload_file ⟨"bkt", true, 30⟩ ⟨.ok 0, none, none⟩
        ⟨"cam", "a.mp4"⟩).1 =
        (if (true : Bool) then [(⟨"cam", "a.mp4"⟩ : Seg)] else []) ∧
      ((true : Bool) = false →
        attemptsUnlink (upload_file ⟨"bkt", true, 30⟩ ⟨.ok 0, none, none⟩
          ⟨"cam", "a.mp4"⟩).1 = false)) ∧
    ((upload_file ⟨"bkt", false, 30⟩ ⟨.ok 0, none, none⟩
        ⟨"cam", "a.mp4"⟩).2 = .ok true ∧
      deletedSegs (upload_file ⟨"bkt", false, 30⟩ ⟨.ok 0, none, none⟩
        ⟨"cam", "a.mp4"⟩).1 =
        (if (false : Bool) then [(⟨"cam", "a.mp4"⟩ : Seg)] else []) ∧
      ((false : Bool) = false →
        attemptsUnlink (upload_file ⟨"bkt", false, 30⟩ ⟨.ok 0, none, none⟩
          ⟨"cam", "a.mp4"⟩).1 = false)) :=
  ⟨upload_success_deletes_iff_configured ⟨"bkt", true, 30⟩ _ _ 0 rfl rfl rfl,
   upload_success_deletes_iff_configured ⟨"bkt", false, 30⟩ _ _ 0 rfl rfl rfl⟩

/-- Claim C10: When the S3 transfer succeeds but the subsequent `unlink`
(with `delete_after_upload` enabled) raises — e.g. the file vanished after
the upload — `upload_file` returns `False` even though the object was
written to the remote store: a `False` return does not imply that no remote
write occurred. -/
theorem false_return_despite_remote_write
    (cfg : Config) (env : UploadEnv) (seg : Seg) (mtime : Nat) (e : PyError)
    (hstat : env.statResult = .ok mtime)
    (hup : env.uploadResult = none)
    (hdel : cfg.delete_after_upload = true)
    (hun : env.unlinkResult = some e) :
    (upload_file cfg env seg).2 = .ok false ∧
    uploadedSegs (upload_file cfg env seg).1 = [seg] ∧
    deletedSegs (upload_file cfg env seg).1 = [] := by
  simp [upload_file, hstat, hup, hdel, hun, uploadedSegs, deletedSegs]

/-- Witness for C10: a concrete post-upload deletion failure. -/
theorem false_return_despite_remote_write_witness :
    (upload_file ⟨"bkt", true, 30⟩
        ⟨.ok 0, none, some .fileNotFound⟩ ⟨"cam", "a.mp4"⟩).2 = .ok false ∧
    uploadedSegs (upload_file ⟨"bkt", true, 30⟩
        ⟨.ok 0, none, some .fileNotFound⟩ ⟨"cam", "a.mp4"⟩).1 =
      [⟨"cam", "a.mp4"⟩] ∧
    deletedSegs (upload_file ⟨"bkt", true, 30⟩
        ⟨.ok 0, none, some .fileNotFound⟩ ⟨"cam", "a.mp4"⟩).1 = [] :=
  false_return_despite_remote_write _ _ _ 0 .fileNotFound rfl rfl rfl rfl

/-- Claim C5: The scanner's output is exactly the `*.mp4`-named immediate
entries of the storage root's camera directories whose age is strictly
greater than 300 seconds (so an entry of age exactly 300 is excluded and
every `.mp4` file older than that is included), it never returns an entry
whose name is not `*.mp4`, and it never descends into nested
subdirectories: their contents are irrelevant to the result.  `glob`
matches by name, so the characterization speaks of immediate entries; on
the regular camera recordings the spec describes these are precisely the
video files. -/
theorem scanner_exactly_old_mp4_files :
    (∀ (now : Nat) (root : List RootEntry) (s : Seg),
        s ∈ find_completed_segments now root ↔
          ∃ r ∈ root, r.isDir = true ∧ r.name = s.camera ∧
            ∃ e ∈ r.entries, e.name = s.filename ∧
              globMatchesMp4 e.name = true ∧ e.mtime + 300 < now) ∧
    (∀ (now : Nat) (root : List RootEntry) (s : Seg),
        s ∈ find_completed_segments now root →
          globMatchesMp4 s.filename = true) ∧
    (∀ (now : Nat) (root : List RootEntry),
        find_completed_segments now (stripNested root) =
          find_completed_segments now root) := by
  refine ⟨fun now root s => mem_find_completed_segments, ?_, ?_⟩
  · intro now root s hs
    obtain ⟨r, _, _, _, e, _, hfn, hm, _⟩ :=
      mem_find_completed_segments.mp hs
    rw [← hfn]
    exact hm
  · intro now root
    unfold find_completed_segments
    rw [collectSegments_stripNested]

/-- Witness for C5: on a concrete tree — a camera directory holding a file
aged 400 s, a file aged exactly 300 s, a `log.txt`, and a nested
subdirectory with its own old file — the scanner returns exactly the one
old video file. -/
theorem scanner_exactly_old_mp4_files_witness :
    (⟨"front-door", "a.mp4"⟩ : Seg) ∈ find_completed_segments 1000
      [⟨"front-door", true,
        [.file "a.mp4" 600, .file "b.mp4" 700, .file "log.txt" 100,
         .subdir "nested" 100 [("deep.mp4", 0)]]⟩] ∧
    find_completed_segments 1000
      [⟨"front-door", true,
        [.file "a.mp4" 600, .file "b.mp4" 700, .file "log.txt" 100,
         .subdir "nested" 100 [("deep.mp4", 0)]]⟩] =
      [⟨"front-door", "a.mp4"⟩] :=
  ⟨(scanner_exactly_old_mp4_files.1 1000 _ _).mpr
    ⟨⟨"front-door", true,
        [.file "a.mp4" 600, .file "b.mp4" 700, .file "log.txt" 100,
         .subdir "nested" 100 [("deep.mp4", 0)]]⟩,
      by decide, by decide, by decide,
      .file "a.mp4" 600, by decide, by decide, by decide, by decide⟩,
   by decide⟩

/-- Counterexample to claim C9 as stated: with cameras `front` and
`front-door` — one name a proper prefix of the other — the program's
parts-tuple comparison puts `front/x.mp4` first, but in code-point order
on the full path string `front-door/y.mp4` comes first, because the
hyphen (0x2D) sorts below the path separator (0x2F).  So the scanner's
output here is not sorted lexicographically by full path. -/
theorem scanner_output_not_full_path_sorted :
    find_completed_segments 1000
      [⟨"front", true, [.file "x.mp4" 0]⟩,
       ⟨"front-door", true, [.file "y.mp4" 0]⟩] =
      [⟨"front", "x.mp4"⟩, ⟨"front-door", "y.mp4"⟩] ∧
    ¬ (find_completed_segments 1000
        [⟨"front", true, [.file "x.mp4" 0]⟩,
         ⟨"front-door", true, [.file "y.mp4" 0]⟩]).Pairwise
        (fun a b => fullPathLe a b = true) := by
  have heq : find_completed_segments 1000
      [⟨"front", true, [.file "x.mp4" 0]⟩,
       ⟨"front-door", true, [.file "y.mp4" 0]⟩] =
      [⟨"front", "x.mp4"⟩, ⟨"front-door", "y.mp4"⟩] := by decide
  refine ⟨heq, fun h => ?_⟩
  rw [heq] at h
  obtain ⟨h₁, -⟩ := List.pairwise_cons.mp h
  have hle := h₁ ⟨"front-door", "y.mp4"⟩ (List.mem_cons_self _ _)
  have : fullPathLe ⟨"front", "x.mp4"⟩ ⟨"front-door", "y.mp4"⟩ = false := by
    decide
  rw [this] at hle
  cases hle

/-- Claim C9, amended: the scanner's output is deterministically ordered,
sorted by the path-components tuple — camera directory name first, then
filename, each in code-point order (`segLe`, the order `sorted` applies to
`Path` values; it agrees with full-path string order except when one
camera name is a proper prefix of another).  Non-directory entries at the
storage-root level are ignored, an empty storage root yields the empty
result, and a camera directory with zero files contributes nothing. -/
theorem scanner_sorted_by_path_parts_and_edge_cases :
    (∀ (now : Nat) (root : List RootEntry),
        (find_completed_segments now root).Pairwise
          (fun a b => segLe a b = true)) ∧
    (∀ (now : Nat) (name : String) (entries : List CamEntry)
        (root : List RootEntry),
        find_completed_segments now (⟨name, false, entries⟩ :: root) =
          find_completed_segments now root) ∧
    (∀ now : Nat, find_completed_segments now [] = []) ∧
    (∀ (now : Nat) (name : String) (root : List RootEntry),
        find_completed_segments now (⟨name, true, []⟩ :: root) =
          find_completed_segments now root) := by
  refine ⟨fun now root => sortSegs_pairwise _, ?_, fun now => rfl, ?_⟩
  · intro now name entries root
    unfold find_completed_segments collectSegments
    simp
  · intro now name root
    unfold find_completed_segments collectSegments
    simp

/-- Claim C7: No segment blocks another: whenever every `upload_file` call of
a cycle returns a boolean (rather than raising), the cycle attempts every
discovered segment in order, whatever mix of `True`/`False` the calls
return.  And concretely: a cycle over a camera directory holding two
complete segments and one recent one uploads exactly the two complete
segments and deletes nothing else — the recent file stays on disk. -/
theorem no_segment_blocks_another :
    (∀ (cfg : Config) (uenv : Seg → UploadEnv) (segs : List Seg),
        (∀ s ∈ segs, ∃ b, (upload_file cfg (uenv s) s).2 = .ok b) →
        ∃ t rs, process_segments cfg uenv segs = .ok (t, rs) ∧
          rs.map Prod.fst = segs) ∧
    (cycleUploaded (run_cycle ⟨"bkt", true, 30⟩ 1000
        [⟨"cam", true,
          [.file "a.mp4" 100, .file "b.mp4" 200, .file "c.mp4" 900]⟩]
        (fun _ => ⟨.ok 0, none, none⟩)) =
      [⟨"cam", "a.mp4"⟩, ⟨"cam", "b.mp4"⟩] ∧
    cycleDeleted (run_cycle ⟨"bkt", true, 30⟩ 1000
        [⟨"cam", true,
          [.file "a.mp4" 100, .file "b.mp4" 200, .file "c.mp4" 900]⟩]
        (fun _ => ⟨.ok 0, none, none⟩)) =
      [⟨"cam", "a.mp4"⟩, ⟨"cam", "b.mp4"⟩] ∧
    (⟨"cam", "c.mp4"⟩ : Seg) ∉ cycleDeleted (run_cycle ⟨"bkt", true, 30⟩
        1000
        [⟨"cam", true,
          [.file "a.mp4" 100, .file "b.mp4" 200, .file "c.mp4" 900]⟩]
        (fun _ => ⟨.ok 0, none, none⟩))) := by
  refine ⟨?_, by decide, by decide, by decide⟩
  intro cfg uenv segs
  induction segs with
  | nil => exact fun _ => ⟨[], [], rfl, rfl⟩
  | cons s rest ih =>
    intro h
    obtain ⟨b, hb⟩ := h s (List.mem_cons_self s rest)
    obtain ⟨t₀, rs₀, hrec, hmap⟩ :=
      ih fun s' hs' => h s' (List.mem_cons_of_mem s hs')
    rcases hU : upload_file cfg (uenv s) s with ⟨t, r⟩
    rw [hU] at hb
    have hb' : r = .ok b := hb
    subst hb'
    refine ⟨t ++ t₀, (s, b) :: rs₀, ?_, ?_⟩
    · simp only [process_segments, hU, hrec]
    · simp [hmap]

/-- Witness for C7: with the first of two segments failing its upload
(store error, `False` return), the cycle still attempts both. -/
theorem no_segment_blocks_another_witness :
    ∃ t rs, process_segments ⟨"bkt", true, 30⟩
        (fun s => if s.filename = "a.mp4"
          then ⟨.ok 0, some .storeError, none⟩
          else ⟨.ok 0, none, none⟩)
        [⟨"cam", "a.mp4"⟩, ⟨"cam", "b.mp4"⟩] = .ok (t, rs) ∧
      rs.map Prod.fst = [⟨"cam", "a.mp4"⟩, ⟨"cam", "b.mp4"⟩] := by
  apply no_segment_blocks_another.1
  intro s hs
  rcases List.mem_cons.mp hs with rfl | hs
  · exact ⟨false, rfl⟩
  · rcases List.mem_cons.mp hs with rfl | hs
    · exact ⟨true, rfl⟩
    · cases hs

/-- Claim C8: An exception escaping the per-cycle logic is caught at the
`while True` level and followed by the fixed 60-second back-off, after
which the loop simply continues with the remaining iterations; and since an
iteration's outcome is a function of the configuration and that iteration's
own environment alone, a failed cycle does not prevent the next cycle from
completing once the environment recovers. -/
theorem loop_catches_errors_and_recovers :
    (∀ (cfg : Config) (env : CycleEnv) (rest : List CycleEnv) (e : PyError),
        env.interrupt = false →
        run_cycle cfg env.now env.root env.uenv = .error e →
        run_continuous cfg (env :: rest) =
          .errorCaught e 60 :: run_continuous cfg rest) ∧
    (∀ (cfg : Config) (env₁ env₂ : CycleEnv) (rest : List CycleEnv)
        (e : PyError) (t : List Action) (rs : List (Seg × Bool)),
        env₁.interrupt = false → env₂.interrupt = false →
        run_cycle cfg env₁.now env₁.root env₁.uenv = .error e →
        run_cycle cfg env₂.now env₂.root env₂.uenv = .ok (t, rs) →
        run_continuous cfg (env₁ :: env₂ :: rest) =
          .errorCaught e 60 :: .completed rs cfg.check_interval ::
            run_continuous cfg rest) := by
  constructor
  · intro cfg env rest e hi hc
    simp [run_continuous, run_iteration, hi, hc]
  · intro cfg env₁ env₂ rest e t rs h₁ h₂ hc₁ hc₂
    simp [run_continuous, run_iteration, h₁, h₂, hc₁, hc₂]

/-- Witness for C8: a first iteration whose segment vanished before its
`stat` (the cycle aborts with `FileNotFoundError`) is caught with the
60-second back-off, and the second iteration, over a recovered
environment, completes and sleeps the configured interval. -/
theorem loop_catches_errors_and_recovers_witness :
    run_continuous ⟨"bkt", false, 30⟩
      [⟨1000, [⟨"cam", true, [.file "a.mp4" 100]⟩],
          fun _ => ⟨.error .fileNotFound, none, none⟩, false⟩,
       ⟨1000, [⟨"cam", true, [.file "a.mp4" 100]⟩],
          fun _ => ⟨.ok 0, none, none⟩, false⟩] =
      [.errorCaught .fileNotFound 60,
       .completed [(⟨"cam", "a.mp4"⟩, true)] 30] :=
  loop_catches_errors_and_recovers.2 ⟨"bkt", false, 30⟩
    ⟨1000, [⟨"cam", true, [.file "a.mp4" 100]⟩],
      fun _ => ⟨.error .fileNotFound, none, none⟩, false⟩
    ⟨1000, [⟨"cam", true, [.file "a.mp4" 100]⟩],
      fun _ => ⟨.ok 0, none, none⟩, false⟩
    [] .fileNotFound
    [.stat ⟨"cam", "a.mp4"⟩ true,
     .s3upload ⟨"cam", "a.mp4"⟩ "bkt" "cam/1970/01/01/a.mp4" true]
    [(⟨"cam", "a.mp4"⟩, true)]
    rfl rfl rfl rfl

end CameraBackup
